import Mathlib

/-!
Verification of the bunyan log pretty-printer (record model and formatter,
src/record.rs) against its natural-language specification.

The Rust source is shallowly embedded: serde_json values become the `Json`
inductive, `DateTime<Utc>` becomes an `Int` of milliseconds since the Unix
epoch (the only precision the program ever renders or stores after decoding
an integer timestamp), fallible decoding returns `Except`, and the `colored`
crate's global colorization switch is threaded as an explicit `Bool`
parameter (the crate decides styling from a process-global flag, not from the
`Format` argument of `LogRecord::format`, which the code ignores).
-/

set_option maxRecDepth 10000

namespace Bunyan

/-- Model of serde_json numbers: an i64/u64 integer is carried exactly as an
`Int`; a floating-point number is carried by the text serde_json would print
for it (no claim inspects float values, only their rendered text). -/
inductive JNumber where
  | int (i : Int)
  | float (text : String)
deriving DecidableEq, Repr

/-- Model of serde_json::Value. Objects are association lists in iteration
order of the underlying map. -/
inductive Json where
  | null
  | bool (b : Bool)
  | num (n : JNumber)
  | str (s : String)
  | arr (elems : List Json)
  | obj (fields : List (String × Json))

/-- Rust str::contains with a char pattern: some character of the string
equals the pattern. -/
def rustContains (s : String) (c : Char) : Bool :=
  s.data.any (fun a => a == c)

/-- Splitting a character list at every occurrence of a separator; the
result always has one more piece than there are separators. -/
def splitOnChar (sep : Char) : List Char → List (List Char)
  | [] => [[]]
  | c :: rest =>
      let r := splitOnChar sep rest
      if c = sep then [] :: r
      else
        match r with
        | [] => [[c]]
        | h :: t => (c :: h) :: t

/-- Rust str::lines: split on a newline, where a final trailing newline does
not produce an extra empty line, and a trailing carriage return is stripped
from each line. -/
def rustLines (s : String) : List String :=
  let parts := splitOnChar '\n' s.data
  let parts := if parts.getLast? = some [] then parts.dropLast else parts
  parts.map (fun l => String.mk (if l.getLast? = some '\r' then l.dropLast else l))

/-- Rust str::len: the length of a string in UTF-8 bytes. -/
def rustLen (s : String) : Nat :=
  s.utf8ByteSize

/-- Model of the colored crate: wrap a string in an ANSI escape sequence when
the process-global colorization switch is on, and leave it untouched when it
is off. The switch is threaded explicitly as `colorize`. -/
def ansiWrap (code : String) (colorize : Bool) (s : String) : String :=
  if colorize then "\x1b[" ++ code ++ "m" ++ s ++ "\x1b[0m" else s

def cyan (colorize : Bool) (s : String) : String := ansiWrap "36" colorize s

def red (colorize : Bool) (s : String) : String := ansiWrap "31" colorize s

def yellow (colorize : Bool) (s : String) : String := ansiWrap "33" colorize s

def green (colorize : Bool) (s : String) : String := ansiWrap "32" colorize s

def blue (colorize : Bool) (s : String) : String := ansiWrap "34" colorize s

def reversed (colorize : Bool) (s : String) : String := ansiWrap "7" colorize s

def customColorGray (colorize : Bool) (s : String) : String :=
  ansiWrap "38;2;128;128;128" colorize s

def bold (colorize : Bool) (s : String) : String := ansiWrap "1" colorize s

/-- Modelled from the spec: the crate-root `NamedLogLevel` enum is not under
src/; the spec describes it as the closed severity enumeration
Fatal/Error/Warn/Info/Debug/Trace, each bound to exactly one numeric code
(the bunyan codes, 60 down to 10; the repository test corpus shows 30 →
Info). -/
inductive NamedLogLevel where
  | fatal
  | error
  | warn
  | info
  | debug
  | trace
deriving DecidableEq, Repr

/-- Modelled from the spec: `TryFrom<u8> for NamedLogLevel`, the numeric
binding of the six severities; any other code is not a named level. -/
def NamedLogLevel.tryFrom (level : Nat) : Option NamedLogLevel :=
  if level = 60 then some .fatal
  else if level = 50 then some .error
  else if level = 40 then some .warn
  else if level = 30 then some .info
  else if level = 20 then some .debug
  else if level = 10 then some .trace
  else none

/-- Modelled from the spec: the crate-root `Format` type is not under src/;
the spec describes the color control as a single boolean toggle supplied by
the caller. -/
inductive Format where
  | standard
  | colored
deriving DecidableEq, Repr

/-- Embedding of `format_level` (src/record.rs lines 59-74). -/
def format_level (level : Nat) (colorize : Bool) : String :=
  match NamedLogLevel.tryFrom level with
  | some .fatal => reversed colorize "FATAL"
  | some .error => red colorize "ERROR"
  | some .warn => yellow colorize " WARN"
  | some .info => green colorize " INFO"
  | some .debug => blue colorize "DEBUG"
  | some .trace => customColorGray colorize "TRACE"
  | none => "LVL" ++ toString level

/-- Hexadecimal digit character (lower case), as in serde_json's
\u00XX escapes. -/
def hexDigit (n : Nat) : Char :=
  if n < 10 then Char.ofNat (48 + n) else Char.ofNat (87 + n)

/-- Escaping of one character inside a JSON string, as serde_json emits it. -/
def escapeChar (c : Char) : String :=
  if c = '"' then "\\\""
  else if c = '\\' then "\\\\"
  else if c.toNat < 32 then
    if c = '\x08' then "\\b"
    else if c = '\x09' then "\\t"
    else if c = '\x0a' then "\\n"
    else if c = '\x0c' then "\\f"
    else if c = '\x0d' then "\\r"
    else "\\u00" ++ String.mk [hexDigit (c.toNat / 16), hexDigit (c.toNat % 16)]
  else String.mk [c]

def escapeJson (s : String) : String :=
  String.join (s.toList.map escapeChar)

/-- Two-space indentation repeated to the current depth, as produced by
serde_json's PrettyFormatter (the program always passes the indent
string two spaces, src/record.rs line 89). -/
def indentN (depth : Nat) : String :=
  String.join (List.replicate depth "  ")

mutual

/-- Embedding of serde_json pretty serialization with a two-space indent, as
performed by `json_to_indented_string` (src/record.rs lines 118-127). -/
def ppJson (depth : Nat) : Json → String
  | .null => "null"
  | .bool b => if b then "true" else "false"
  | .num (.int i) => toString i
  | .num (.float t) => t
  | .str s => "\"" ++ escapeJson s ++ "\""
  | .arr [] => "[]"
  | .arr (x :: xs) =>
      "[\n" ++ String.intercalate ",\n" (ppList (depth + 1) (x :: xs)) ++
        "\n" ++ indentN depth ++ "]"
  | .obj [] => "\x7b\x7d"
  | .obj (kv :: kvs) =>
      "\x7b\n" ++ String.intercalate ",\n" (ppObj (depth + 1) (kv :: kvs)) ++
        "\n" ++ indentN depth ++ "\x7d"

def ppList (depth : Nat) : List Json → List String
  | [] => []
  | x :: xs => (indentN depth ++ ppJson depth x) :: ppList depth xs

def ppObj (depth : Nat) : List (String × Json) → List String
  | [] => []
  | (k, v) :: kvs =>
      (indentN depth ++ "\"" ++ escapeJson k ++ "\": " ++ ppJson depth v) ::
        ppObj depth kvs

end

def json_to_indented_string (value : Json) : String :=
  ppJson 0 value

mutual

/-- Fallible rendering of the serde_json serializer: in the source every
write goes through an io::Result (the unwrap at src/record.rs line 122);
writing into a Vec is infallible, so each primitive write is `.ok`. -/
def ppJsonE (depth : Nat) : Json → Except String String
  | .null => .ok "null"
  | .bool b => .ok (if b then "true" else "false")
  | .num (.int i) => .ok (toString i)
  | .num (.float t) => .ok t
  | .str s => .ok ("\"" ++ escapeJson s ++ "\"")
  | .arr [] => .ok "[]"
  | .arr (x :: xs) => do
      let parts ← ppListE (depth + 1) (x :: xs)
      .ok ("[\n" ++ String.intercalate ",\n" parts ++ "\n" ++ indentN depth ++ "]")
  | .obj [] => .ok "\x7b\x7d"
  | .obj (kv :: kvs) => do
      let parts ← ppObjE (depth + 1) (kv :: kvs)
      .ok ("\x7b\n" ++ String.intercalate ",\n" parts ++ "\n" ++ indentN depth ++ "\x7d")

def ppListE (depth : Nat) : List Json → Except String (List String)
  | [] => .ok []
  | x :: xs => do
      let s ← ppJsonE depth x
      let rest ← ppListE depth xs
      .ok ((indentN depth ++ s) :: rest)

def ppObjE (depth : Nat) : List (String × Json) → Except String (List String)
  | [] => .ok []
  | (k, v) :: kvs => do
      let s ← ppJsonE depth v
      let rest ← ppObjE depth kvs
      .ok ((indentN depth ++ "\"" ++ escapeJson k ++ "\": " ++ s) :: rest)

end

/-- Embedding of `indent` (src/record.rs lines 129-131). -/
def indent (s : String) : String :=
  "    " ++ String.intercalate "\n    " (rustLines s)

/-- Stringification of one extra value (src/record.rs lines 80-90): a JSON
string is kept raw unless it is empty or contains a space, in which case it
is wrapped in double quotes (without escaping); any other value is pretty
serialized. -/
def stringifyValue (value : Json) : String :=
  match value with
  | .str s => if rustContains s ' ' || s.isEmpty then "\"" ++ s ++ "\"" else s
  | _ => json_to_indented_string value

/-- Loop body of `format_extras` (src/record.rs lines 79-101): one key/value
pair either appends a detail block or an inline pair to the accumulators. -/
def extrasStep (colorize : Bool) (acc : List String × List String)
    (kv : String × Json) : List String × List String :=
  let stringified := stringifyValue kv.2
  if rustContains stringified '\n' || rustLen stringified > 50 then
    match kv.2 with
    | .str s => (acc.1 ++ [indent (bold colorize kv.1 ++ ": " ++ s)], acc.2)
    | _ => (acc.1 ++ [indent (bold colorize kv.1 ++ ": " ++ stringified)], acc.2)
  else
    (acc.1, acc.2 ++ [bold colorize kv.1 ++ "=" ++ stringified])

/-- Embedding of `format_extras` (src/record.rs lines 76-113). -/
def format_extras (colorize : Bool)
    (extra_fields : List (String × Json)) : String :=
  let groups := extra_fields.foldl (extrasStep colorize) ([], [])
  let formatted_details :=
    if groups.1.isEmpty then "" else String.intercalate "\n    --\n" groups.1 ++ "\n"
  let formatted_extras :=
    if groups.2.isEmpty then "" else " (" ++ String.intercalate "," groups.2 ++ ")"
  formatted_extras ++ "\n" ++ formatted_details

/-- Proleptic Gregorian calendar date (year, month, day) of a day count
relative to 1970-01-01 (the civil-from-days algorithm; chrono's observable
date arithmetic). -/
def civilFromDays (z0 : Int) : Int × Int × Int :=
  let z := z0 + 719468
  let era := z / 146097
  let doe := z - era * 146097
  let yoe := (doe - doe / 1460 + doe / 36524 - doe / 146096) / 365
  let y := yoe + era * 400
  let doy := doe - (365 * yoe + yoe / 4 - yoe / 100)
  let mp := (5 * doy + 2) / 153
  let d := doy - (153 * mp + 2) / 5 + 1
  let m := mp + (if mp < 10 then 3 else -9)
  (y + (if m ≤ 2 then 1 else 0), m, d)

/-- Day count relative to 1970-01-01 of a proleptic Gregorian date (the
days-from-civil algorithm). -/
def daysFromCivil (y0 m d : Int) : Int :=
  let y := y0 - (if m ≤ 2 then 1 else 0)
  let era := y / 400
  let yoe := y - era * 400
  let doy := (153 * (m + (if m > 2 then -3 else 9)) + 2) / 5 + d - 1
  let doe := yoe * 365 + yoe / 4 - yoe / 100 + doy
  era * 146097 + doe - 719468

def pad2 (n : Int) : String :=
  if n < 10 then "0" ++ toString n else toString n

def pad3 (n : Int) : String :=
  if n < 10 then "00" ++ toString n
  else if n < 100 then "0" ++ toString n
  else toString n

def pad4 (n : Int) : String :=
  if n < 10 then "000" ++ toString n
  else if n < 100 then "00" ++ toString n
  else if n < 1000 then "0" ++ toString n
  else toString n

/-- Year field of an RFC 3339 rendering, as chrono prints it: zero padded to
four digits, a leading minus for negative years, a leading plus beyond
9999. -/
def formatYear (y : Int) : String :=
  if y < 0 then "-" ++ pad4 (-y)
  else if y > 9999 then "+" ++ toString y
  else pad4 y

/-- Timezone suffix of chrono's to_rfc3339_opts with use_z set: Z for a zero
offset, otherwise a signed hh:mm offset. -/
def offsetSuffix (offsetMinutes : Int) : String :=
  if offsetMinutes = 0 then "Z"
  else
    let a : Int := |offsetMinutes|
    (if offsetMinutes < 0 then "-" else "+") ++ pad2 (a / 60) ++ ":" ++ pad2 (a % 60)

/-- Embedding of chrono's
with_timezone(&Local).to_rfc3339_opts(SecondsFormat::Millis, true)
(src/record.rs lines 47-49): render an epoch-milliseconds instant in a
display timezone given by its offset in minutes, at millisecond precision
(sub-second digits truncated to three). -/
def rfc3339Millis (offsetMinutes : Int) (t : Int) : String :=
  let tl := t + offsetMinutes * 60000
  let days := tl / 86400000
  let msod := tl % 86400000
  let ymd := civilFromDays days
  let h := msod / 3600000
  let mi := (msod / 60000) % 60
  let s := (msod / 1000) % 60
  let ms := msod % 1000
  formatYear ymd.1 ++ "-" ++ pad2 ymd.2.1 ++ "-" ++ pad2 ymd.2.2 ++ "T" ++
    pad2 h ++ ":" ++ pad2 mi ++ ":" ++ pad2 s ++ "." ++ pad3 ms ++
    offsetSuffix offsetMinutes

def parseNDigits (n : Nat) (cs : List Char) : Option (Nat × List Char) :=
  let pre := cs.take n
  if pre.length = n && pre.all Char.isDigit then
    some (pre.foldl (fun a c => a * 10 + (c.toNat - 48)) 0, cs.drop n)
  else none

def expectChar (c : Char) : List Char → Option (List Char)
  | x :: xs => if x = c then some xs else none
  | [] => none

/-- Milliseconds denoted by a fractional-second digit string: the first
three digits, right padded with zeros (further digits are parsed but
truncated away by the millisecond rendering). -/
def fracMillis (ds : List Char) : Nat :=
  let v := (ds.take 3).foldl (fun a c => a * 10 + (c.toNat - 48)) 0
  if ds.length = 1 then v * 100
  else if ds.length = 2 then v * 10
  else v

def isLeapYear (y : Int) : Bool :=
  y % 4 = 0 && (y % 100 ≠ 0 || y % 400 = 0)

def daysInMonth (y : Int) (m : Nat) : Nat :=
  if m = 2 then (if isLeapYear y then 29 else 28)
  else if m = 4 || m = 6 || m = 9 || m = 11 then 30
  else 31

def parseOffset : List Char → Option (Int × List Char)
  | 'Z' :: rest => some (0, rest)
  | 'z' :: rest => some (0, rest)
  | c :: rest =>
      if c = '+' || c = '-' then do
        let (hh, rest) ← parseNDigits 2 rest
        let rest ← expectChar ':' rest
        let (mm, rest) ← parseNDigits 2 rest
        if hh ≤ 23 && mm ≤ 59 then
          some ((if c = '-' then (-1 : Int) else 1) * (hh * 60 + mm), rest)
        else none
      else none
  | [] => none

/-- Embedding of chrono's RFC 3339 / ISO-8601 extended date-time parsing as
used by the timestamp deserializer (src/record.rs lines 151-153): date,
time-of-day with optional fractional seconds, and a Z or signed hh:mm
offset; the result is the UTC instant in epoch milliseconds. -/
def parseRFC3339 (s : String) : Option Int := do
  let cs := s.toList
  let (y, cs) ← parseNDigits 4 cs
  let cs ← expectChar '-' cs
  let (mo, cs) ← parseNDigits 2 cs
  let cs ← expectChar '-' cs
  let (d, cs) ← parseNDigits 2 cs
  let cs ← match cs with
    | c :: rest => if c = 'T' || c = 't' || c = ' ' then some rest else none
    | [] => none
  let (h, cs) ← parseNDigits 2 cs
  let cs ← expectChar ':' cs
  let (mi, cs) ← parseNDigits 2 cs
  let cs ← expectChar ':' cs
  let (sec, cs) ← parseNDigits 2 cs
  let (ms, cs) ← match cs with
    | '.' :: rest =>
        let ds := rest.takeWhile Char.isDigit
        if ds.isEmpty then none else some (fracMillis ds, rest.drop ds.length)
    | _ => some (0, cs)
  let (offMin, cs) ← parseOffset cs
  if cs.isEmpty && 1 ≤ mo && mo ≤ 12 && 1 ≤ d && d ≤ daysInMonth y mo &&
      h ≤ 23 && mi ≤ 59 && sec ≤ 59 then
    some (daysFromCivil y mo d * 86400000 +
      (h * 3600000 + mi * 60000 + sec * 1000 + ms : Nat) - offMin * 60000)
  else none

/-- Chrono's earliest representable day (year -262144, January 1), as a day
count from the epoch. -/
def minDays : Int := daysFromCivil (-262144) 1 1

/-- Chrono's latest representable day (year 262143, December 31). -/
def maxDays : Int := daysFromCivil 262143 12 31

/-- Embedding of chrono's Utc.timestamp_millis_opt (src/record.rs line 154):
split the milliseconds into whole seconds (euclidean), then accept exactly
when the day count falls inside chrono's representable date range; the
accepted instant carries the input milliseconds exactly. -/
def timestamp_millis_opt (i : Int) : Option Int :=
  let secs := i / 1000
  let days := secs / 86400
  if minDays ≤ days ∧ days ≤ maxDays then some i else none

/-- Embedding of the untagged DateTimeOrTimestamp deserializer
(src/record.rs lines 133-160): a JSON string is parsed as RFC 3339 (the
source then round-trips the parsed value through to_rfc3339 and back, a
no-op on success); a JSON integer is interpreted as epoch milliseconds; any
other JSON shape fails to match either untagged variant. -/
def timeDeserialize (j : Json) : Except String Int :=
  match j with
  | .str s =>
      match parseRFC3339 s with
      | some t => .ok t
      | none => .error "data did not match any variant"
  | .num (.int i) =>
      match timestamp_millis_opt i with
      | some t => .ok t
      | none => .error "invalid date format"
  | _ => .error "data did not match any variant"

/-- Embedding of the `LogRecord` struct (src/record.rs lines 11-36): the
time field is the decoded UTC instant in epoch milliseconds. -/
structure LogRecord where
  v : Option Nat
  level : Nat
  name : Option String
  hostname : Option String
  pid : Option Nat
  time : Int
  message : String
  extras : List (String × Json)

/-- Embedding of `LogRecord::format` (src/record.rs lines 43-56). The Rust
method ignores its `Format` argument (bound as the unused `_format`); the
local display timezone and the colored crate's process-global switch are
threaded explicitly. -/
def LogRecord.format (r : LogRecord) (_fmt : Format) (tzOffsetMinutes : Int)
    (colorize : Bool) : String :=
  let level := format_level r.level colorize
  "[" ++ rfc3339Millis tzOffsetMinutes r.time ++ "] " ++ level ++ " (" ++
    toString (r.pid.getD 0) ++ "): " ++ cyan colorize r.message ++
    format_extras colorize r.extras

/-- Keys consumed by the named fields of `LogRecord` (their serde names:
the version field is the JSON key v, the message field the JSON key msg);
every other key is collected by the flattened extras map. -/
def reservedKeys : List String :=
  ["v", "level", "name", "hostname", "pid", "time", "msg"]

def lookupField (fields : List (String × Json)) (k : String) : Option Json :=
  (fields.find? (fun kv => kv.1 = k)).map (fun kv => kv.2)

/-- Serde deserialization of an unsigned integer with an exclusive upper
bound (u8, u32): only a JSON integer in range is accepted. -/
def decodeUInt (bound : Int) (j : Json) : Except String Nat :=
  match j with
  | .num (.int i) => if 0 ≤ i && i < bound then .ok i.toNat else .error "invalid value"
  | _ => .error "invalid type"

/-- Serde deserialization of an optional unsigned integer field: an absent
field or a JSON null is None. -/
def decodeOptUInt (bound : Int) (j : Option Json) : Except String (Option Nat) :=
  match j with
  | none => .ok none
  | some .null => .ok none
  | some jv => (decodeUInt bound jv).map some

/-- Serde deserialization of an optional string field: an absent field or a
JSON null is None. -/
def decodeOptStr : Option Json → Except String (Option String)
  | none => .ok none
  | some .null => .ok none
  | some (.str s) => .ok (some s)
  | some _ => .error "invalid type"

/-- Serde deserialization of the mandatory u8 `level` field. -/
def decodeLevel (j : Option Json) : Except String Nat :=
  match j with
  | none => .error "missing field level"
  | some jv => decodeUInt 256 jv

/-- Serde deserialization of the mandatory `time` field through the
iso8601_or_timestamp module. -/
def decodeTimeField (j : Option Json) : Except String Int :=
  match j with
  | none => .error "missing field time"
  | some jv => timeDeserialize jv

/-- Serde deserialization of the mandatory string `msg` field. -/
def decodeMsg (j : Option Json) : Except String String :=
  match j with
  | none => .error "missing field msg"
  | some (.str s) => .ok s
  | some _ => .error "invalid type"

/-- Embedding of serde deserialization of `LogRecord` (the derive on
src/record.rs lines 11-36): the named fields are decoded from their keys,
and every remaining key/value pair is collected verbatim into the flattened
extras map. -/
def decodeRecord (j : Json) : Except String LogRecord :=
  match j with
  | .obj fields => do
      let v ← decodeOptUInt 256 (lookupField fields "v")
      let level ← decodeLevel (lookupField fields "level")
      let name ← decodeOptStr (lookupField fields "name")
      let hostname ← decodeOptStr (lookupField fields "hostname")
      let pid ← decodeOptUInt 4294967296 (lookupField fields "pid")
      let time ← decodeTimeField (lookupField fields "time")
      let message ← decodeMsg (lookupField fields "msg")
      .ok ⟨v, level, name, hostname, pid, time, message,
        fields.filter (fun kv => !reservedKeys.contains kv.1)⟩
  | _ => .error "invalid type: expected a map"

/-- Classification predicate of `format_extras` (src/record.rs line 92): a
pair is a detail block when its stringified form contains a newline or is
longer than 50 bytes. -/
def isDetailPair (kv : String × Json) : Bool :=
  rustContains (stringifyValue kv.2) '\n' || rustLen (stringifyValue kv.2) > 50

/-- Body of a detail block (src/record.rs lines 93-97): a string value is
rendered raw, any other value by its stringified form. -/
def detailBody (kv : String × Json) : String :=
  match kv.2 with
  | .str s => s
  | _ => stringifyValue kv.2

def detailBlock (colorize : Bool) (kv : String × Json) : String :=
  indent (bold colorize kv.1 ++ ": " ++ detailBody kv)

def inlinePair (colorize : Bool) (kv : String × Json) : String :=
  bold colorize kv.1 ++ "=" ++ stringifyValue kv.2

/-- Written after the spec's words, for comparison with `format_extras`: the
inline group is the comma-joined key=value pairs wrapped as a
space-prefixed parenthesized list, or empty when there are no inline
pairs. -/
def inline_group (colorize : Bool) (fields : List (String × Json)) : String :=
  let pairs := (fields.filter (fun kv => !isDetailPair kv)).map (inlinePair colorize)
  if pairs.isEmpty then "" else " (" ++ String.intercalate "," pairs ++ ")"

/-- Written after the spec's words, for comparison with `format_extras`: the
detail group joins the indented blocks with a separator line of four
spaces, two dashes and a newline, ends with a trailing newline, and is
empty when there are no detail pairs. -/
def detail_group (colorize : Bool) (fields : List (String × Json)) : String :=
  let blocks := (fields.filter isDetailPair).map (detailBlock colorize)
  if blocks.isEmpty then "" else String.intercalate "\n    --\n" blocks ++ "\n"

/-- Fallible form of `stringifyValue`: the non-string branch goes through
the serializer's io::Result plumbing instead of unwrapping it. -/
def stringifyValueE (value : Json) : Except String String :=
  match value with
  | .str s => .ok (if rustContains s ' ' || s.isEmpty then "\"" ++ s ++ "\"" else s)
  | _ => ppJsonE 0 value

/-- Fallible form of `extrasStep`, propagating a serializer error instead of
panicking at the unwrap. -/
def extrasStepE (colorize : Bool) (acc : List String × List String)
    (kv : String × Json) : Except String (List String × List String) := do
  let stringified ← stringifyValueE kv.2
  if rustContains stringified '\n' || rustLen stringified > 50 then
    match kv.2 with
    | .str s => .ok (acc.1 ++ [indent (bold colorize kv.1 ++ ": " ++ s)], acc.2)
    | _ => .ok (acc.1 ++ [indent (bold colorize kv.1 ++ ": " ++ stringified)], acc.2)
  else
    .ok (acc.1, acc.2 ++ [bold colorize kv.1 ++ "=" ++ stringified])

/-- Fallible form of `format_extras`. -/
def format_extrasE (colorize : Bool)
    (extra_fields : List (String × Json)) : Except String String := do
  let groups ← extra_fields.foldlM (extrasStepE colorize) ([], [])
  let formatted_details :=
    if groups.1.isEmpty then "" else String.intercalate "\n    --\n" groups.1 ++ "\n"
  let formatted_extras :=
    if groups.2.isEmpty then "" else " (" ++ String.intercalate "," groups.2 ++ ")"
  .ok (formatted_extras ++ "\n" ++ formatted_details)

/-- Fallible form of `LogRecord::format`, exposing the only failure path of
the formatter (the serde_json serialization of non-string extras). -/
def LogRecord.formatE (r : LogRecord) (_fmt : Format) (tzOffsetMinutes : Int)
    (colorize : Bool) : Except String String := do
  let extras ← format_extrasE colorize r.extras
  .ok ("[" ++ rfc3339Millis tzOffsetMinutes r.time ++ "] " ++
    format_level r.level colorize ++ " (" ++ toString (r.pid.getD 0) ++ "): " ++
    cyan colorize r.message ++ extras)

/-- End-to-end input of the repository test corpus (tests/all/formatting.rs,
corpus file simple.log). -/
def simpleLogObj : Json :=
  .obj [("v", .num (.int 0)), ("level", .num (.int 30)), ("name", .str "myservice"),
    ("hostname", .str "example.com"), ("pid", .num (.int 123)),
    ("time", .str "2012-02-08T22:56:52.856Z"), ("msg", .str "My message")]

/-- Twenty-six copies of a two-byte character: 26 characters but 52 UTF-8
bytes, space-free and newline-free. -/
def eStr : String := String.mk (List.replicate 26 'é')

/-- Fifty ASCII characters, the inline boundary. -/
def a50 : String := String.mk (List.replicate 50 'a')

/-- Fifty-one ASCII characters, just past the boundary. -/
def a51 : String := String.mk (List.replicate 51 'a')

/-- A 51-character string containing a space: its quoted stringified form is
53 bytes, so the pair is classified as a detail. -/
def sSp : String := String.mk (List.replicate 49 'a') ++ " b"

lemma minDays_eq : minDays = -96465658 := by decide

lemma maxDays_eq : maxDays = 95026601 := by decide

lemma extrasStep_eq (c : Bool) (acc : List String × List String)
    (kv : String × Json) :
    extrasStep c acc kv =
      if isDetailPair kv then (acc.1 ++ [detailBlock c kv], acc.2)
      else (acc.1, acc.2 ++ [inlinePair c kv]) := by
  rcases kv with ⟨k, v⟩
  simp only [extrasStep, isDetailPair, detailBlock, detailBody, inlinePair]
  split
  · cases v <;> rfl
  · rfl

lemma intercalate_single (s x : String) : String.intercalate s [x] = x := by
  simp [String.intercalate, String.intercalate.go]

lemma foldl_extrasStep (c : Bool) (fields : List (String × Json)) :
    ∀ d e : List String,
      fields.foldl (extrasStep c) (d, e) =
        (d ++ (fields.filter isDetailPair).map (detailBlock c),
         e ++ (fields.filter (fun kv => !isDetailPair kv)).map (inlinePair c)) := by
  induction fields with
  | nil => simp
  | cons kv fields ih =>
      intro d e
      simp only [List.foldl_cons, extrasStep_eq]
      by_cases h : isDetailPair kv
      · simp [h, ih, List.filter_cons]
      · simp [h, ih, List.filter_cons]

lemma format_extras_spec (colorize : Bool) (fields : List (String × Json)) :
    format_extras colorize fields =
      inline_group colorize fields ++ "\n" ++ detail_group colorize fields := by
  unfold format_extras inline_group detail_group
  rw [foldl_extrasStep]
  simp

lemma format_extras_singleton (c : Bool) (k : String) (v : Json) :
    format_extras c [(k, v)] =
      if isDetailPair (k, v) then "\n" ++ detailBlock c (k, v) ++ "\n"
      else " (" ++ inlinePair c (k, v) ++ ")" ++ "\n" := by
  rw [format_extras_spec]
  unfold inline_group detail_group
  by_cases h : isDetailPair (k, v)
  · simp [h, List.filter_cons, intercalate_single, String.append_assoc]
  · simp [h, List.filter_cons, intercalate_single, String.append_assoc]

/-- C10: the output of `LogRecord::format` does not depend on its `Format`
argument — the method binds it as the unused `_format`, so any two values of
the argument give byte-identical strings; which bytes are styled is decided
by the colored crate's process-global switch alone. -/
theorem c10_format_ignores_argument (r : LogRecord) (f₁ f₂ : Format)
    (tz : Int) (c : Bool) : r.format f₁ tz c = r.format f₂ tz c := rfl

/-- C4: each of the six known severity codes renders as a fixed 5-character
label (padded with a leading space where the English name is shorter), and
every unknown code renders as LVL followed by the numeric code, with no
styling under either color setting. -/
theorem c4_format_level_labels :
    (format_level 60 false = "FATAL" ∧ format_level 50 false = "ERROR" ∧
     format_level 40 false = " WARN" ∧ format_level 30 false = " INFO" ∧
     format_level 20 false = "DEBUG" ∧ format_level 10 false = "TRACE") ∧
    (∀ n : Nat, (NamedLogLevel.tryFrom n).isSome = true →
      (format_level n false).length = 5) ∧
    (∀ (n : Nat) (c : Bool), NamedLogLevel.tryFrom n = none →
      format_level n c = "LVL" ++ toString n) := by
  refine ⟨⟨rfl, rfl, rfl, rfl, rfl, rfl⟩, ?_, ?_⟩
  · intro n h
    unfold format_level
    cases heq : NamedLogLevel.tryFrom n with
    | none => rw [heq] at h; simp at h
    | some l => cases l <;> rfl
  · intro n c h
    unfold format_level
    rw [h]

/-- Witness for C4 at concrete levels: 40 is a known severity with a
5-character label, 25 is unknown and renders as LVL25 under color. -/
theorem c4_format_level_witness :
    (NamedLogLevel.tryFrom 40).isSome = true ∧ (format_level 40 false).length = 5 ∧
    NamedLogLevel.tryFrom 25 = none ∧ format_level 25 true = "LVL25" :=
  ⟨by decide, c4_format_level_labels.2.1 40 (by decide), by decide,
    c4_format_level_labels.2.2 25 true (by decide)⟩

/-- C5: the extras text is exactly the inline group, a newline, then the
detail group, where the groups are as the spec words them (comma-joined
parenthesized inline pairs or empty; detail blocks joined by a 4-space
dash-dash separator line with a trailing newline, or empty). -/
theorem c5_extras_assembly (colorize : Bool) (fields : List (String × Json)) :
    format_extras colorize fields =
      inline_group colorize fields ++ "\n" ++ detail_group colorize fields :=
  format_extras_spec colorize fields

/-- C1: evaluation of the formatter at the record of the repository's own
test corpus (tests/all/formatting.rs expects the line
[2012-02-08T22:56:52.856Z]  INFO: myservice/123 on example.com: My message
followed by a newline): the code instead renders the pid parenthesized
directly after the level token and drops the name and hostname fields from
the output entirely — the name/pid-on-hostname segment appears nowhere. -/
theorem c1_name_hostname_dropped :
    (decodeRecord simpleLogObj).map (fun r => r.format .standard 0 false) =
      .ok "[2012-02-08T22:56:52.856Z]  INFO (123): My message\n" ∧
    "[2012-02-08T22:56:52.856Z]  INFO (123): My message\n" ≠
      "[2012-02-08T22:56:52.856Z]  INFO: myservice/123 on example.com: My message\n" ∧
    ¬ ("myservice/123 on example.com".toList <:+:
        "[2012-02-08T22:56:52.856Z]  INFO (123): My message\n".toList) := by
  refine ⟨rfl, by decide, by decide⟩

/-- C2 counterexample: a 51-character string containing a space is wrapped
in quotes for classification (53 bytes, hence a detail), but the detail
block renders the raw string — the quoted form appears nowhere in the
formatted output, refuting the claim that space-containing string extras
are always rendered quoted regardless of classification. -/
theorem c2_detail_string_unquoted :
    rustContains sSp ' ' = true ∧
    format_extras false [("k", .str sSp)] = "\n    k: " ++ sSp ++ "\n" ∧
    ¬ (("\"" ++ sSp ++ "\"").toList <:+:
        (format_extras false [("k", .str sSp)]).toList) := by
  exact ⟨by decide, by decide, by decide⟩

/-- C2 (amended): the stringified value of a string extra is quoted exactly
when the string is empty or contains a space, and the stringified value is
what the inline rendering shows; a detail-classified string extra, however,
is rendered as its raw content, unquoted. -/
theorem c2_string_quoting (k s : String) (c : Bool) :
    (rustContains s ' ' = false → s.isEmpty = false → stringifyValue (.str s) = s) ∧
    ((rustContains s ' ' = true ∨ s.isEmpty = true) →
      stringifyValue (.str s) = "\"" ++ s ++ "\"") ∧
    (rustContains (stringifyValue (.str s)) '\n' = true ∨
        50 < rustLen (stringifyValue (.str s)) →
      format_extras c [(k, .str s)] = "\n" ++ indent (bold c k ++ ": " ++ s) ++ "\n") := by
  refine ⟨?_, ?_, ?_⟩
  · intro h1 h2
    simp [stringifyValue, h1, h2]
  · intro h
    rcases h with h | h <;> simp [stringifyValue, h]
  · intro h
    rw [format_extras_singleton, if_pos]
    · rfl
    · simp only [isDetailPair, Bool.or_eq_true, decide_eq_true_eq]
      rcases h with h | h
      · exact Or.inl h
      · exact Or.inr h

/-- Witness for C2 at concrete strings: a plain string stays raw, a spaced
string is quoted when inline, and the 51-character spaced string renders raw
inside its detail block. -/
theorem c2_string_quoting_witness :
    (rustContains "ab" ' ' = false ∧ "ab".isEmpty = false ∧
      stringifyValue (.str "ab") = "ab") ∧
    (rustContains "a b" ' ' = true ∧ stringifyValue (.str "a b") = "\"a b\"") ∧
    (50 < rustLen (stringifyValue (.str sSp)) ∧
      format_extras false [("k", .str sSp)] =
        "\n" ++ indent (bold false "k" ++ ": " ++ sSp) ++ "\n") :=
  ⟨⟨by decide, by decide, (c2_string_quoting "k" "ab" false).1 (by decide) (by decide)⟩,
   ⟨by decide, (c2_string_quoting "k" "a b" false).2.1 (Or.inl (by decide))⟩,
   ⟨by decide, (c2_string_quoting "k" sSp false).2.2 (Or.inr (by decide))⟩⟩

/-- C3 counterexample: twenty-six copies of a two-byte character give a
stringified form of 26 characters (no newline, well under the claimed
50-character bound), yet the pair is classified as a detail block, because
the code measures Rust str::len — UTF-8 bytes (52 here) — not characters. -/
theorem c3_charlen_counterexample :
    (stringifyValue (.str eStr)).length = 26 ∧
    rustContains (stringifyValue (.str eStr)) '\n' = false ∧
    isDetailPair ("k", .str eStr) = true ∧
    format_extras false [("k", .str eStr)] = "\n    k: " ++ eStr ++ "\n" ∧
    format_extras false [("k", .str eStr)] ≠ " (k=" ++ eStr ++ ")\n" := by
  exact ⟨by decide, by decide, by decide, by decide, by decide⟩

/-- C3 (amended): a pair is a detail block iff its stringified form contains
a newline or exceeds 50 UTF-8 bytes; at the boundary (ASCII, where bytes
equal characters) 50 is inline and 51 is a detail. -/
theorem c3_classification_bytes (k : String) (v : Json) (c : Bool) :
    (rustContains (stringifyValue v) '\n' = false → rustLen (stringifyValue v) ≤ 50 →
      format_extras c [(k, v)] = " (" ++ inlinePair c (k, v) ++ ")" ++ "\n") ∧
    (rustContains (stringifyValue v) '\n' = true ∨ 50 < rustLen (stringifyValue v) →
      format_extras c [(k, v)] = "\n" ++ detailBlock c (k, v) ++ "\n") ∧
    format_extras false [("k", .str a50)] = " (k=" ++ a50 ++ ")\n" ∧
    format_extras false [("k", .str a51)] = "\n    k: " ++ a51 ++ "\n" := by
  refine ⟨?_, ?_, by decide, by decide⟩
  · intro h1 h2
    rw [format_extras_singleton, if_neg]
    simp only [isDetailPair, h1, Bool.false_or, decide_eq_true_eq]
    omega
  · intro h
    rw [format_extras_singleton, if_pos]
    simp only [isDetailPair, Bool.or_eq_true, decide_eq_true_eq]
    rcases h with h | h
    · exact Or.inl h
    · exact Or.inr h

/-- Witness for C3 at concrete pairs: a short plain string is inline, the
52-byte string is a detail. -/
theorem c3_classification_witness :
    (rustContains (stringifyValue (.str "ab")) '\n' = false ∧
      rustLen (stringifyValue (.str "ab")) ≤ 50 ∧
      format_extras false [("x", .str "ab")] =
        " (" ++ inlinePair false ("x", .str "ab") ++ ")" ++ "\n") ∧
    (50 < rustLen (stringifyValue (.str eStr)) ∧
      format_extras false [("y", .str eStr)] =
        "\n" ++ detailBlock false ("y", .str eStr) ++ "\n") :=
  ⟨⟨by decide, by decide,
      (c3_classification_bytes "x" (.str "ab") false).1 (by decide) (by decide)⟩,
   ⟨by decide, (c3_classification_bytes "y" (.str eStr) false).2.1 (Or.inr (by decide))⟩⟩

/-- C6: timestamp decoding succeeds for exactly two JSON shapes — a string
accepted by the RFC 3339 parser, or an integer inside chrono's
representable millisecond range — and returns a decode error for every
other shape (object, array, boolean, null, non-integer number, malformed
string) and for out-of-range integers; the deserializer is a total
function into Except, so failures are error values, never panics. -/
theorem c6_time_decoding_shapes (j : Json) :
    (∃ t, timeDeserialize j = .ok t) ↔
      ((∃ s, j = .str s ∧ (parseRFC3339 s).isSome = true) ∨
       (∃ i, j = .num (.int i) ∧
         -8334632851200000 ≤ i ∧ i ≤ 8210298412799999)) := by
  cases j with
  | str s =>
      cases hp : parseRFC3339 s with
      | none => simp [timeDeserialize, hp]
      | some t => simp [timeDeserialize, hp]
  | num n =>
      cases n with
      | int i =>
          have hrange : (-96465658 ≤ i / 1000 / 86400 ∧ i / 1000 / 86400 ≤ 95026601) ↔
              (-8334632851200000 ≤ i ∧ i ≤ 8210298412799999) := by omega
          by_cases h : -8334632851200000 ≤ i ∧ i ≤ 8210298412799999
          · have hok : timeDeserialize (.num (.int i)) = .ok i := by
              unfold timeDeserialize timestamp_millis_opt
              rw [minDays_eq, maxDays_eq]
              dsimp only
              rw [if_pos (hrange.mpr h)]
            exact ⟨fun _ => Or.inr ⟨i, rfl, h.1, h.2⟩, fun _ => ⟨i, hok⟩⟩
          · have herr : timeDeserialize (.num (.int i)) = .error "invalid date format" := by
              unfold timeDeserialize timestamp_millis_opt
              rw [minDays_eq, maxDays_eq]
              dsimp only
              rw [if_neg (fun hc => h (hrange.mp hc))]
            constructor
            · rintro ⟨t, ht⟩
              rw [herr] at ht
              cases ht
            · rintro (⟨s, hs, -⟩ | ⟨i2, hi, hr1, hr2⟩)
              · cases hs
              · obtain rfl : i2 = i := by
                  injection hi.symm with h3
                  injection h3
                exact absurd ⟨hr1, hr2⟩ h
      | float t => simp [timeDeserialize]
  | null => simp [timeDeserialize]
  | bool b => simp [timeDeserialize]
  | arr xs => simp [timeDeserialize]
  | obj fs => simp [timeDeserialize]

/-- C7: for every integer millisecond timestamp inside the representable
range, decoding stores the instant exactly (no truncation); formatting a
record carrying it renders the line with exactly the RFC 3339 conversion of
that instant to the display timezone, and the conversion shows a
three-digit fractional part equal to the instant's milliseconds modulo one
second — millisecond precision end to end. -/
theorem c7_millis_roundtrip (T : Int)
    (h1 : -8334632851200000 ≤ T) (h2 : T ≤ 8210298412799999) :
    timeDeserialize (.num (.int T)) = .ok T ∧
    (∀ (r : LogRecord) (fmt : Format) (tz : Int) (c : Bool), r.time = T →
      r.format fmt tz c =
        "[" ++ rfc3339Millis tz T ++ "] " ++ format_level r.level c ++ " (" ++
          toString (r.pid.getD 0) ++ "): " ++ cyan c r.message ++
          format_extras c r.extras) ∧
    (∀ tz : Int, ∃ p, rfc3339Millis tz T =
      p ++ "." ++ pad3 (T % 1000) ++ offsetSuffix tz) := by
  refine ⟨?_, ?_, ?_⟩
  · unfold timeDeserialize timestamp_millis_opt
    rw [minDays_eq, maxDays_eq]
    dsimp only
    rw [if_pos (by omega)]
  · intro r fmt tz c h
    unfold LogRecord.format
    rw [h]
  · intro tz
    unfold rfc3339Millis
    dsimp only
    rw [show (T + tz * 60000) % 86400000 % 1000 = T % 1000 by omega]
    exact ⟨_, rfl⟩

/-- Witness for C7 at the corpus timestamp 1328741812856
(2012-02-08T22:56:52.856Z). -/
theorem c7_millis_roundtrip_witness :
    (-8334632851200000 : Int) ≤ 1328741812856 ∧
    (1328741812856 : Int) ≤ 8210298412799999 ∧
    timeDeserialize (.num (.int 1328741812856)) = .ok 1328741812856 ∧
    rfc3339Millis 0 1328741812856 = "2012-02-08T22:56:52.856Z" ∧
    ((⟨none, 30, none, none, some 123, 1328741812856, "My message", []⟩ :
        LogRecord).format .standard 0 false =
      "[" ++ rfc3339Millis 0 1328741812856 ++ "] " ++ format_level 30 false ++
        " (" ++ toString ((some 123 : Option Nat).getD 0) ++ "): " ++
        cyan false "My message" ++ format_extras false []) ∧
    (∃ p, rfc3339Millis 0 1328741812856 =
      p ++ "." ++ pad3 ((1328741812856 : Int) % 1000) ++ offsetSuffix 0) :=
  ⟨by decide, by decide,
    (c7_millis_roundtrip 1328741812856 (by decide) (by decide)).1, by decide,
    (c7_millis_roundtrip 1328741812856 (by decide) (by decide)).2.1
      ⟨none, 30, none, none, some 123, 1328741812856, "My message", []⟩
      .standard 0 false rfl,
    (c7_millis_roundtrip 1328741812856 (by decide) (by decide)).2.2 0⟩

lemma ok_bind {ε α β : Type} (a : α) (f : α → Except ε β) :
    (Except.ok a >>= f : Except ε β) = f a := rfl

mutual

theorem ppJsonE_ok : (d : Nat) → (v : Json) → ppJsonE d v = .ok (ppJson d v)
  | _, .null => rfl
  | _, .bool _ => rfl
  | _, .num (.int _) => rfl
  | _, .num (.float _) => rfl
  | _, .str _ => rfl
  | _, .arr [] => rfl
  | d, .arr (x :: xs) => by
      have h := ppListE_ok (d + 1) (x :: xs)
      simp only [ppJsonE, ppJson, h, ok_bind]

  | _, .obj [] => rfl
  | d, .obj (kv :: kvs) => by
      have h := ppObjE_ok (d + 1) (kv :: kvs)
      simp only [ppJsonE, ppJson, h, ok_bind]

theorem ppListE_ok : (d : Nat) → (xs : List Json) → ppListE d xs = .ok (ppList d xs)
  | _, [] => rfl
  | d, x :: xs => by
      have h1 := ppJsonE_ok d x
      have h2 := ppListE_ok d xs
      simp only [ppListE, ppList, h1, h2, ok_bind]

theorem ppObjE_ok : (d : Nat) → (kvs : List (String × Json)) →
    ppObjE d kvs = .ok (ppObj d kvs)
  | _, [] => rfl
  | d, (k, v) :: kvs => by
      have h1 := ppJsonE_ok d v
      have h2 := ppObjE_ok d kvs
      simp only [ppObjE, ppObj, h1, h2, ok_bind]

end

lemma stringifyValueE_ok (v : Json) :
    stringifyValueE v = .ok (stringifyValue v) := by
  cases v with
  | str s => rfl
  | null => exact ppJsonE_ok 0 .null
  | bool b => exact ppJsonE_ok 0 (.bool b)
  | num n => exact ppJsonE_ok 0 (.num n)
  | arr xs => exact ppJsonE_ok 0 (.arr xs)
  | obj fs => exact ppJsonE_ok 0 (.obj fs)

lemma extrasStepE_ok (c : Bool) (acc : List String × List String)
    (kv : String × Json) : extrasStepE c acc kv = .ok (extrasStep c acc kv) := by
  rcases kv with ⟨k, v⟩
  unfold extrasStepE extrasStep
  rw [stringifyValueE_ok, ok_bind]
  dsimp only
  split
  · cases v <;> rfl
  · rfl

lemma foldlM_extrasStepE (c : Bool) (fields : List (String × Json)) :
    ∀ acc, fields.foldlM (extrasStepE c) acc =
      .ok (fields.foldl (extrasStep c) acc) := by
  induction fields with
  | nil => intro acc; rfl
  | cons kv fields ih =>
      intro acc
      rw [List.foldlM_cons, extrasStepE_ok, ok_bind, List.foldl_cons]
      exact ih _

lemma format_extrasE_ok (c : Bool) (fields : List (String × Json)) :
    format_extrasE c fields = .ok (format_extras c fields) := by
  unfold format_extrasE format_extras
  rw [foldlM_extrasStepE, ok_bind]

/-- C8: formatting is total — the fallible pipeline (which threads the
serde_json serializer's io::Result through stringification, extras
formatting and line assembly, instead of unwrapping) succeeds on every
record, every extras map of arbitrarily nested JSON values and either color
setting, and returns exactly the string the total formatter produces. -/
theorem c8_format_total (r : LogRecord) (fmt : Format) (tz : Int) (c : Bool) :
    r.formatE fmt tz c = .ok (r.format fmt tz c) := by
  unfold LogRecord.formatE LogRecord.format
  rw [format_extrasE_ok, ok_bind]

lemma except_bind_ok_elim {ε α β : Type} {e : Except ε α} {f : α → Except ε β}
    {b : β} (h : (e >>= f) = .ok b) : ∃ a, e = .ok a ∧ f a = .ok b := by
  cases e with
  | error err => exact Except.noConfusion h
  | ok a => exact ⟨a, rfl, h⟩

/-- C9: whenever decoding succeeds, the extras map is exactly the input
object's pairs whose keys are outside the reserved set (v, level, name,
hostname, pid, time, msg), with their original JSON values untouched — in
particular no reserved key ever appears among the extras. -/
theorem c9_extras_partition (fields : List (String × Json)) (r : LogRecord)
    (h : decodeRecord (Json.obj fields) = .ok r) :
    r.extras = fields.filter (fun kv => !reservedKeys.contains kv.1) ∧
    ∀ kv ∈ r.extras, kv.1 ∉ reservedKeys := by
  have hex : r.extras = fields.filter (fun kv => !reservedKeys.contains kv.1) := by
    unfold decodeRecord at h
    obtain ⟨v, hv, h⟩ := except_bind_ok_elim h
    obtain ⟨lvl, hl, h⟩ := except_bind_ok_elim h
    obtain ⟨nm, hn, h⟩ := except_bind_ok_elim h
    obtain ⟨hn2, hh, h⟩ := except_bind_ok_elim h
    obtain ⟨pid, hp, h⟩ := except_bind_ok_elim h
    obtain ⟨tm, ht, h⟩ := except_bind_ok_elim h
    obtain ⟨msg, hm, h⟩ := except_bind_ok_elim h
    cases h
    rfl
  refine ⟨hex, ?_⟩
  intro kv hkv
  rw [hex, List.mem_filter] at hkv
  simpa using hkv.2

/-- Witness for C9: a concrete object with one reserved-free key decodes
with exactly that pair as its extras. -/
theorem c9_extras_partition_witness :
    decodeRecord (Json.obj [("level", .num (.int 30)),
      ("time", .num (.int 1328741812856)), ("msg", .str "hi"),
      ("foo", .str "bar"), ("hostname", .str "h")]) =
      .ok ⟨none, 30, none, some "h", none, 1328741812856, "hi",
        [("foo", .str "bar")]⟩ ∧
    ((⟨none, 30, none, some "h", none, 1328741812856, "hi",
        [("foo", .str "bar")]⟩ : LogRecord).extras =
      [("level", Json.num (.int 30)), ("time", .num (.int 1328741812856)),
        ("msg", .str "hi"), ("foo", .str "bar"),
        ("hostname", .str "h")].filter (fun kv => !reservedKeys.contains kv.1) ∧
     ∀ kv ∈ (⟨none, 30, none, some "h", none, 1328741812856, "hi",
        [("foo", .str "bar")]⟩ : LogRecord).extras, kv.1 ∉ reservedKeys) :=
  ⟨rfl, c9_extras_partition _ _ rfl⟩

end Bunyan
